import Mathlib

/-!
Verification of the vahan core against its specification.

The development embeds, as executable Lean definitions, the two core
subsystems of the repository:

* the Symmetric Cipher Service (`src/server/utils/encryption.ts`):
  AES-256-GCM authenticated encryption with hex-encoded outputs.  The
  GCM mode of operation (counter-mode keystream, GHASH authentication
  tag, `J0` derivation for the 16-byte IV used by the service) is
  modelled in full at the byte level; the AES-256 block permutation
  itself and the scrypt key derivation are external library primitives,
  so definitions are parameterised by an abstract block-cipher function
  `aes : key -> block -> block` and quantify over the derived key.
  Plaintext strings are modelled as their UTF-8 byte sequences.

* the Credential Vault and the Domain Provisioning & Verification
  Engine (`src/server/services/aws-credentials.ts`): database state is
  an explicit record of rows, every external effect (AWS STS/SES call
  results, random IVs, database-write success, clock readings) is an
  explicit oracle argument, and each service method is a pure state
  transition translated line by line from the source.
-/

namespace Vahan

/-! ### Hex encoding (Buffer.toString("hex") / Buffer.from(s, "hex")) -/

/-- Lower-case hex digit for a value `n < 16`, as produced by Node's
`Buffer.toString("hex")`. -/
def hexDigitChar (n : Nat) : Char :=
  if n < 10 then Char.ofNat (48 + n) else Char.ofNat (87 + n)

/-- Numeric value of a lower-case hex digit. -/
def hexCharVal (c : Char) : Nat :=
  if 97 ≤ c.toNat then c.toNat - 87 else c.toNat - 48

/-- Two hex characters encoding one byte. -/
def byteToHex (b : Nat) : List Char :=
  [hexDigitChar (b / 16), hexDigitChar (b % 16)]

/-- Hex encoding of a byte string. -/
def bytesToHex : List Nat → List Char
  | [] => []
  | b :: bs => byteToHex b ++ bytesToHex bs

/-- Hex decoding of a character string back to bytes
(`Buffer.from(s, "hex")`). -/
def hexToBytes : List Char → List Nat
  | c1 :: c2 :: rest => (hexCharVal c1 * 16 + hexCharVal c2) :: hexToBytes rest
  | _ => []

/-! ### GCM mode of operation (NIST SP 800-38D), over an abstract block cipher -/

/-- A 16-byte block read as a big-endian 128-bit value (each byte is
normalised to its low 8 bits). -/
def bytesToBlock (bs : List Nat) : Nat :=
  bs.foldl (fun acc b => acc * 256 + b % 256) 0

/-- A 128-bit value written as 16 big-endian bytes. -/
def blockToBytes (n : Nat) : List Nat :=
  (List.range 16).map (fun i => (n >>> ((15 - i) * 8)) % 256)

/-- The GCM reduction constant `R = 11100001 || 0^120`. -/
def gcmR : Nat := 0xe1 <<< 120

/-- One pass of the GF(2^128) multiplication loop; the fuel argument
counts down from 128 so that bit `127` (the leftmost bit of `x` in the
GCM bit ordering) is consumed first. -/
def gfMulAux (x : Nat) : Nat → Nat → Nat → Nat
  | _, z, 0 => z
  | v, z, i + 1 =>
      gfMulAux x (if v % 2 = 1 then (v / 2) ^^^ gcmR else v / 2)
        (if x.testBit i then z ^^^ v else z) i

/-- Multiplication in GF(2^128) with the GCM polynomial. -/
def gfMul (x y : Nat) : Nat := gfMulAux x y 0 128

/-- GHASH: fold the blocks through `y := (y xor b) * h`. -/
def ghash (h : Nat) (blocks : List Nat) : Nat :=
  blocks.foldl (fun y b => gfMul (y ^^^ b) h) 0

/-- Pad a partial chunk on the right with zero bytes to a full block. -/
def padTo16 (c : List Nat) : List Nat := c ++ List.replicate (16 - c.length) 0

/-- Split a byte string into 128-bit blocks, zero-padding the last one. -/
def toBlocks (bs : List Nat) : List Nat :=
  if bs = [] then []
  else bytesToBlock (padTo16 (bs.take 16)) :: toBlocks (bs.drop 16)
termination_by bs.length
decreasing_by
  rename_i h
  have hpos : 0 < bs.length := List.length_pos.mpr h
  simp only [List.length_drop]
  omega

/-- The final GHASH length block `[len(A)]_64 || [len(C)]_64` (lengths in
bits). -/
def lenBlock (aLen cLen : Nat) : Nat :=
  (8 * aLen % 2 ^ 64) * 2 ^ 64 + 8 * cLen % 2 ^ 64

/-- The pre-counter block `J0`.  The service uses 16-byte IVs, so the
general (GHASH) branch applies; the 12-byte special case is kept for
fidelity to the mode definition. -/
def computeJ0 (hk : Nat) (iv : List Nat) : Nat :=
  if iv.length = 12 then bytesToBlock iv * 2 ^ 32 + 1
  else ghash hk (toBlocks iv ++ [lenBlock 0 iv.length])

/-- Increment the low 32 bits of a counter block. -/
def inc32 (b : Nat) : Nat :=
  b / 2 ^ 32 * 2 ^ 32 + (b % 2 ^ 32 + 1) % 2 ^ 32

/-- Iterated `inc32`. -/
def inc32Iter : Nat → Nat → Nat
  | 0, b => b
  | n + 1, b => inc32Iter n (inc32 b)

/-- The GHASH subkey `H = CIPH_K(0^128)`. -/
def hashSubkey (aes : List Nat → List Nat → List Nat) (key : List Nat) : Nat :=
  bytesToBlock (aes key (blockToBytes 0))

/-- The `i`-th keystream byte of GCTR starting at `inc32(J0)`. -/
def ksByte (aes : List Nat → List Nat → List Nat) (key : List Nat)
    (j0 i : Nat) : Nat :=
  (aes key (blockToBytes (inc32Iter (i / 16 + 1) j0))).getD (i % 16) 0 % 256

/-- The first `n` keystream bytes. -/
def gcmKeystream (aes : List Nat → List Nat → List Nat) (key : List Nat)
    (j0 n : Nat) : List Nat :=
  (List.range n).map (ksByte aes key j0)

/-- The 16-byte authentication tag:
`MSB_128(GCTR_K(J0, GHASH_H(pad(C) || len-block)))` with empty AAD, as
produced by `cipher.getAuthTag()`. -/
def gcmTag (aes : List Nat → List Nat → List Nat) (key : List Nat)
    (j0 : Nat) (ct : List Nat) : List Nat :=
  blockToBytes (bytesToBlock (aes key (blockToBytes j0)) ^^^
    ghash (hashSubkey aes key) (toBlocks ct ++ [lenBlock 0 ct.length]))

/-! ### EncryptionService (src/server/utils/encryption.ts) -/

/-- Return shape of `EncryptionService.encrypt`: hex-encoded ciphertext,
IV and authentication tag. -/
structure EncryptionResult where
  encryptedData : String
  iv : String
  tag : String
deriving DecidableEq, Repr

/-- Argument shape of `EncryptionService.decrypt`. -/
structure DecryptionInput where
  encryptedData : String
  iv : String
  tag : String
deriving DecidableEq, Repr

namespace EncryptionService

/-- Model of `EncryptionService.encrypt`: AES-256-GCM over the given
(scrypt-derived) key with the given fresh random 16-byte IV, returning
hex-encoded ciphertext, IV and tag.  The block cipher `aes` and the
random `ivBytes` are explicit parameters; `data` is the plaintext as
UTF-8 bytes. -/
def encrypt (aes : List Nat → List Nat → List Nat) (key ivBytes data : List Nat) :
    EncryptionResult :=
  let j0 := computeJ0 (hashSubkey aes key) ivBytes
  let ct := List.zipWith (fun p k => p ^^^ k) data (gcmKeystream aes key j0 data.length)
  { encryptedData := String.mk (bytesToHex ct)
    iv := String.mk (bytesToHex ivBytes)
    tag := String.mk (bytesToHex (gcmTag aes key j0 ct)) }

/-- Model of `EncryptionService.decrypt`: hex-decode the fields, verify
the authentication tag (`decipher.final` throws on mismatch, modelled as
`none`), and return the decrypted bytes. -/
def decrypt (aes : List Nat → List Nat → List Nat) (key : List Nat)
    (input : DecryptionInput) : Option (List Nat) :=
  let ivBytes := hexToBytes input.iv.data
  let tg := hexToBytes input.tag.data
  let ct := hexToBytes input.encryptedData.data
  let j0 := computeJ0 (hashSubkey aes key) ivBytes
  if tg = gcmTag aes key j0 ct then
    some (List.zipWith (fun p k => p ^^^ k) ct (gcmKeystream aes key j0 ct.length))
  else none

end EncryptionService

/-! ### Round-trip lemmas -/

lemma hexCharVal_hexDigitChar (n : Nat) (h : n < 16) :
    hexCharVal (hexDigitChar n) = n := by
  interval_cases n <;> decide

lemma hexToBytes_bytesToHex (bs : List Nat) (h : ∀ b ∈ bs, b < 256) :
    hexToBytes (bytesToHex bs) = bs := by
  induction bs with
  | nil => rfl
  | cons b bs ih =>
    have hb : b < 256 := h b (by simp)
    have h1 : b / 16 < 16 := by omega
    have h2 : b % 16 < 16 := Nat.mod_lt _ (by norm_num)
    have htail : hexToBytes (bytesToHex bs) = bs :=
      ih (fun x hx => h x (List.mem_cons_of_mem _ hx))
    have hdm : b / 16 * 16 + b % 16 = b := by omega
    simp [bytesToHex, byteToHex, hexToBytes,
      hexCharVal_hexDigitChar _ h1, hexCharVal_hexDigitChar _ h2, htail, hdm]

lemma blockToBytes_lt (n : Nat) : ∀ b ∈ blockToBytes n, b < 256 := by
  intro b hb
  simp only [blockToBytes, List.mem_map] at hb
  obtain ⟨i, _, rfl⟩ := hb
  exact Nat.mod_lt _ (by norm_num)

lemma gcmTag_lt (aes : List Nat → List Nat → List Nat) (key : List Nat)
    (j0 : Nat) (ct : List Nat) : ∀ b ∈ gcmTag aes key j0 ct, b < 256 := by
  unfold gcmTag
  exact blockToBytes_lt _

lemma gcmKeystream_length (aes : List Nat → List Nat → List Nat)
    (key : List Nat) (j0 n : Nat) : (gcmKeystream aes key j0 n).length = n := by
  simp [gcmKeystream]

lemma gcmKeystream_lt (aes : List Nat → List Nat → List Nat) (key : List Nat)
    (j0 n : Nat) : ∀ b ∈ gcmKeystream aes key j0 n, b < 256 := by
  intro b hb
  simp only [gcmKeystream, List.mem_map] at hb
  obtain ⟨i, _, rfl⟩ := hb
  exact Nat.mod_lt _ (by norm_num)

lemma xor_lt_256 {x y : Nat} (hx : x < 256) (hy : y < 256) : x ^^^ y < 256 := by
  have h8 : (256 : Nat) = 2 ^ 8 := by norm_num
  rw [h8] at hx hy ⊢
  exact Nat.xor_lt_two_pow hx hy

lemma zipWith_xor_lt (a b : List Nat) (ha : ∀ x ∈ a, x < 256)
    (hb : ∀ x ∈ b, x < 256) :
    ∀ x ∈ List.zipWith (fun p k => p ^^^ k) a b, x < 256 := by
  induction a generalizing b with
  | nil => intro x hx; simp at hx
  | cons p ps ih =>
    cases b with
    | nil => intro x hx; simp at hx
    | cons k ks =>
      intro x hx
      rcases List.mem_cons.mp hx with hx | hx
      · subst hx
        exact xor_lt_256 (ha p (by simp)) (hb k (by simp))
      · exact ih ks (fun y hy => ha y (List.mem_cons_of_mem _ hy))
          (fun y hy => hb y (List.mem_cons_of_mem _ hy)) x hx

lemma zipWith_xor_cancel (a b : List Nat) (h : a.length ≤ b.length) :
    List.zipWith (fun p k => p ^^^ k)
      (List.zipWith (fun p k => p ^^^ k) a b) b = a := by
  induction a generalizing b with
  | nil => simp
  | cons p ps ih =>
    cases b with
    | nil => simp at h
    | cons k ks =>
      simp only [List.zipWith, List.cons.injEq]
      refine ⟨Nat.xor_cancel_right k p, ih ks ?_⟩
      simpa using Nat.le_of_succ_le_succ h

/-- C1. Round-trip of the Symmetric Cipher Service: for every plaintext
(as UTF-8 bytes) and every fresh IV, `decrypt` applied to the
`{ciphertext, iv, tag}` produced by `encrypt` returns the original
plaintext, for any block cipher and any derived key. -/
theorem encrypt_decrypt_roundtrip (aes : List Nat → List Nat → List Nat)
    (key ivBytes data : List Nat)
    (hdata : ∀ b ∈ data, b < 256) (hiv : ∀ b ∈ ivBytes, b < 256) :
    EncryptionService.decrypt aes key
      { encryptedData := (EncryptionService.encrypt aes key ivBytes data).encryptedData
        iv := (EncryptionService.encrypt aes key ivBytes data).iv
        tag := (EncryptionService.encrypt aes key ivBytes data).tag } =
      some data := by
  unfold EncryptionService.encrypt EncryptionService.decrypt
  simp only
  have hks := gcmKeystream_lt aes key
    (computeJ0 (hashSubkey aes key) ivBytes) data.length
  have hct : ∀ x ∈ List.zipWith (fun p k => p ^^^ k) data
      (gcmKeystream aes key (computeJ0 (hashSubkey aes key) ivBytes) data.length),
      x < 256 := zipWith_xor_lt _ _ hdata hks
  rw [hexToBytes_bytesToHex _ hiv, hexToBytes_bytesToHex _ hct,
    hexToBytes_bytesToHex _ (gcmTag_lt _ _ _ _)]
  rw [if_pos rfl]
  congr 1
  have hlen : (List.zipWith (fun p k => p ^^^ k) data
      (gcmKeystream aes key (computeJ0 (hashSubkey aes key) ivBytes)
        data.length)).length = data.length := by
    rw [List.length_zipWith, gcmKeystream_length, Nat.min_self]
  rw [hlen]
  exact zipWith_xor_cancel _ _ (by rw [gcmKeystream_length])

/-- C1 witness: the round-trip theorem applied at a concrete block
cipher, key, IV and plaintext. -/
theorem encrypt_decrypt_roundtrip_witness :
    (∀ b ∈ [104, 101, 108, 108, 111], b < 256) ∧
    (∀ b ∈ List.replicate 16 3, b < 256) ∧
    EncryptionService.decrypt (fun _ b => b.map (fun x => (x + 113) % 256))
      (List.replicate 32 7)
      { encryptedData := (EncryptionService.encrypt
          (fun _ b => b.map (fun x => (x + 113) % 256)) (List.replicate 32 7)
          (List.replicate 16 3) [104, 101, 108, 108, 111]).encryptedData
        iv := (EncryptionService.encrypt
          (fun _ b => b.map (fun x => (x + 113) % 256)) (List.replicate 32 7)
          (List.replicate 16 3) [104, 101, 108, 108, 111]).iv
        tag := (EncryptionService.encrypt
          (fun _ b => b.map (fun x => (x + 113) % 256)) (List.replicate 32 7)
          (List.replicate 16 3) [104, 101, 108, 108, 111]).tag } =
      some [104, 101, 108, 108, 111] :=
  ⟨by decide, by decide,
    encrypt_decrypt_roundtrip _ _ _ _ (by decide) (by decide)⟩

/-! ### Credential Vault (src/server/services/aws-credentials.ts)

Database state is explicit: the `user_aws_credentials` rows and the
`credential_audit_logs` rows.  Every external effect is an oracle
argument: the outcome of `validateCredentials` (an AWS STS/SES round
trip), the three `encryptionService.encrypt` outputs (which contain
fresh random IVs), whether each database write succeeds, and the clock.
`database.transaction` runs BEGIN / COMMIT with ROLLBACK on any error
(src/server/utils/database.ts), so a failed transactional write leaves
the rows unchanged. -/

/-- Input credentials (interface `AWSCredentials`). -/
structure AWSCredentials where
  accessKeyId : String
  secretAccessKey : String
  sessionToken : Option String
  region : String
deriving DecidableEq, Repr

/-- Result of `validateCredentials` (interface
`CredentialValidationResult`); the detail blob is kept opaque. -/
structure CredentialValidationResult where
  valid : Bool
  error : Option String
  details : Option String
deriving DecidableEq, Repr

/-- A `user_aws_credentials` row (interface `StoredCredentials`). -/
structure StoredCredentials where
  id : Nat
  user_id : Nat
  encrypted_access_key : String
  encrypted_secret_key : String
  encrypted_session_token : Option String
  region : String
  access_key_iv : String
  secret_key_iv : String
  session_token_iv : Option String
  access_key_tag : String
  secret_key_tag : String
  session_token_tag : Option String
  credentials_valid : Bool
  last_validated : Option Nat
  created_at : Nat
  updated_at : Nat
deriving DecidableEq, Repr

/-- A `credential_audit_logs` row. -/
structure AuditEntry where
  user_id : Nat
  action : String
  ip_address : Option String
  user_agent : Option String
  details : String
  success : Bool
deriving DecidableEq, Repr

/-- The persistent state seen by the Credential Vault. -/
structure VaultState where
  rows : List StoredCredentials
  audit : List AuditEntry
  nextId : Nat
deriving DecidableEq, Repr

/-- Typed errors thrown by the Vault. -/
inductive VaultError
  | invalidCredentials (msg : String)
  | storageError (msg : String)
deriving DecidableEq, Repr

/-- Model of the private helper `logCredentialAction`: a best-effort
audit insert whose own failure is caught and only logged to the console
(the state is returned unchanged when the write fails). -/
def logCredentialAction (auditOk : Bool) (userId : Nat) (action : String)
    (ipAddress userAgent : Option String) (details : String) (success : Bool)
    (s : VaultState) : VaultState :=
  if auditOk then
    { s with audit := s.audit ++ [⟨userId, action, ipAddress, userAgent, details, success⟩] }
  else s

/-- Oracle bundle for one `storeCredentials` call. -/
structure StoreOracles where
  validation : CredentialValidationResult
  encAccess : EncryptionResult
  encSecret : EncryptionResult
  encSession : EncryptionResult
  insertOk : Bool
  txAuditOk : Bool
  catchAuditOk : Bool
  now : Nat
deriving DecidableEq, Repr

/-- The row inserted by `storeCredentials`. -/
def storeRow (o : StoreOracles) (userId : Nat) (credentials : AWSCredentials)
    (rid : Nat) : StoredCredentials :=
  { id := rid
    user_id := userId
    encrypted_access_key := o.encAccess.encryptedData
    encrypted_secret_key := o.encSecret.encryptedData
    encrypted_session_token := credentials.sessionToken.map (fun _ => o.encSession.encryptedData)
    region := credentials.region
    access_key_iv := o.encAccess.iv
    secret_key_iv := o.encSecret.iv
    session_token_iv := credentials.sessionToken.map (fun _ => o.encSession.iv)
    access_key_tag := o.encAccess.tag
    secret_key_tag := o.encSecret.tag
    session_token_tag := credentials.sessionToken.map (fun _ => o.encSession.tag)
    credentials_valid := o.validation.valid
    last_validated := some o.now
    created_at := o.now
    updated_at := o.now }

/-- Model of `AWSCredentialsService.storeCredentials`: validate first
(throwing `Invalid credentials` without touching the database on
failure), then inside one transaction delete any prior row for the
user, insert the new encrypted row, and append a `create` audit entry;
if any write in the transaction fails the whole transaction is rolled
back and the catch block emits a best-effort failure audit entry and
rethrows a storage error. -/
def storeCredentials (o : StoreOracles) (userId : Nat)
    (credentials : AWSCredentials) (ipAddress userAgent : Option String)
    (s : VaultState) : Except VaultError StoredCredentials × VaultState :=
  if ¬ o.validation.valid then
    (Except.error (.invalidCredentials (o.validation.error.getD "")), s)
  else if o.insertOk && o.txAuditOk then
    let newRow := storeRow o userId credentials s.nextId
    (Except.ok newRow,
      { rows := s.rows.filter (fun r => r.user_id != userId) ++ [newRow]
        audit := s.audit ++ [⟨userId, "create", ipAddress, userAgent, credentials.region, true⟩]
        nextId := s.nextId + 1 })
  else
    (Except.error (.storageError "Failed to store credentials"),
      logCredentialAction o.catchAuditOk userId "create" ipAddress userAgent
        "error" false s)

/-- Oracle bundle for one `updateCredentials` call. -/
structure UpdateOracles where
  validation : CredentialValidationResult
  encAccess : EncryptionResult
  encSecret : EncryptionResult
  encSession : EncryptionResult
  updateOk : Bool
  auditOk : Bool
  now : Nat
deriving DecidableEq, Repr

/-- The in-place field update applied by the `UPDATE` statement of
`updateCredentials` (id, user id and creation time are preserved). -/
def updateRowFields (o : UpdateOracles) (credentials : AWSCredentials)
    (r : StoredCredentials) : StoredCredentials :=
  { r with
    encrypted_access_key := o.encAccess.encryptedData
    encrypted_secret_key := o.encSecret.encryptedData
    encrypted_session_token := credentials.sessionToken.map (fun _ => o.encSession.encryptedData)
    region := credentials.region
    access_key_iv := o.encAccess.iv
    secret_key_iv := o.encSecret.iv
    session_token_iv := credentials.sessionToken.map (fun _ => o.encSession.iv)
    access_key_tag := o.encAccess.tag
    secret_key_tag := o.encSecret.tag
    session_token_tag := credentials.sessionToken.map (fun _ => o.encSession.tag)
    credentials_valid := o.validation.valid
    last_validated := some o.now
    updated_at := o.now }

/-- Model of `AWSCredentialsService.updateCredentials`: validate first
(same gate as store), then run a single `UPDATE ... WHERE user_id`
returning the updated rows; when no row matched the service throws
`No credentials found to update`, which its catch block turns into a
failure audit entry (best effort) and a storage error.  Success appends
an `update` audit entry through the swallowing helper. -/
def updateCredentials (o : UpdateOracles) (userId : Nat)
    (credentials : AWSCredentials) (ipAddress userAgent : Option String)
    (s : VaultState) : Except VaultError StoredCredentials × VaultState :=
  if ¬ o.validation.valid then
    (Except.error (.invalidCredentials (o.validation.error.getD "")), s)
  else if ¬ o.updateOk then
    (Except.error (.storageError "Failed to update credentials"),
      logCredentialAction o.auditOk userId "update" ipAddress userAgent "error" false s)
  else
    let rows' := s.rows.map (fun r =>
      if r.user_id = userId then updateRowFields o credentials r else r)
    match rows'.find? (fun r => r.user_id == userId) with
    | none =>
        (Except.error (.storageError "Failed to update credentials: No credentials found to update"),
          logCredentialAction o.auditOk userId "update" ipAddress userAgent
            "error" false { s with rows := rows' })
    | some row =>
        (Except.ok row,
          logCredentialAction o.auditOk userId "update" ipAddress userAgent
            credentials.region true { s with rows := rows' })

/-- Model of `AWSCredentialsService.getCredentials`: look the row up
(`null` when absent, with no audit entry), decrypt each field group
through the abstract `dec` function (`none` models a thrown
`IntegrityError`), and log an `access` audit entry through the
swallowing helper; decrypt failure logs a failed `access` entry and
rethrows. -/
def getCredentials (dec : DecryptionInput → Option String) (auditOk : Bool)
    (userId : Nat) (ipAddress userAgent : Option String) (s : VaultState) :
    Except VaultError (Option AWSCredentials) × VaultState :=
  match s.rows.find? (fun r => r.user_id == userId) with
  | none => (Except.ok none, s)
  | some stored =>
    let failed : Except VaultError (Option AWSCredentials) × VaultState :=
      (Except.error (.storageError "Failed to retrieve credentials"),
        logCredentialAction auditOk userId "access" ipAddress userAgent "error" false s)
    match dec ⟨stored.encrypted_access_key, stored.access_key_iv, stored.access_key_tag⟩ with
    | none => failed
    | some accessKeyId =>
      match dec ⟨stored.encrypted_secret_key, stored.secret_key_iv, stored.secret_key_tag⟩ with
      | none => failed
      | some secretAccessKey =>
        match stored.encrypted_session_token, stored.session_token_iv, stored.session_token_tag with
        | some c, some i, some t =>
          match dec ⟨c, i, t⟩ with
          | none => failed
          | some sessionToken =>
            (Except.ok (some ⟨accessKeyId, secretAccessKey, some sessionToken, stored.region⟩),
              logCredentialAction auditOk userId "access" ipAddress userAgent
                stored.region true s)
        | _, _, _ =>
          (Except.ok (some ⟨accessKeyId, secretAccessKey, none, stored.region⟩),
            logCredentialAction auditOk userId "access" ipAddress userAgent
              stored.region true s)

/-- Model of `AWSCredentialsService.deleteCredentials`: delete the row,
report through the swallowing audit helper whether one existed, and
return that flag; a database failure is caught, audit-logged (best
effort) and rethrown as a storage error. -/
def deleteCredentials (deleteOk auditOk : Bool) (userId : Nat)
    (ipAddress userAgent : Option String) (s : VaultState) :
    Except VaultError Bool × VaultState :=
  if deleteOk then
    let existed := s.rows.any (fun r => r.user_id == userId)
    (Except.ok existed,
      logCredentialAction auditOk userId "delete" ipAddress userAgent "" existed
        { s with rows := s.rows.filter (fun r => r.user_id != userId) })
  else
    (Except.error (.storageError "Failed to delete credentials"),
      logCredentialAction auditOk userId "delete" ipAddress userAgent "error" false s)

/-- Model of `AWSCredentialsService.revalidateCredentials`: retrieve
(without request metadata), validate, update the `valid` flag and
`last_validated`, and audit-log the attempt through the swallowing
helper; every failure is caught and returned as a `valid := false`
result object rather than thrown. -/
def revalidateCredentials (dec : DecryptionInput → Option String)
    (validation : CredentialValidationResult) (updateOk accessAuditOk auditOk : Bool)
    (now : Nat) (userId : Nat) (ipAddress userAgent : Option String)
    (s : VaultState) : CredentialValidationResult × VaultState :=
  match getCredentials dec accessAuditOk userId none none s with
  | (Except.error _, s1) =>
      (⟨false, some "Failed to retrieve credentials", none⟩,
        logCredentialAction auditOk userId "validate" ipAddress userAgent "error" false s1)
  | (Except.ok none, s1) => (⟨false, some "No credentials found", none⟩, s1)
  | (Except.ok (some _), s1) =>
      if updateOk then
        let rows' := s1.rows.map (fun r =>
          if r.user_id = userId then
            { r with credentials_valid := validation.valid, last_validated := some now }
          else r)
        (validation,
          logCredentialAction auditOk userId "validate" ipAddress userAgent ""
            validation.valid { s1 with rows := rows' })
      else
        (⟨false, some "db error", none⟩,
          logCredentialAction auditOk userId "validate" ipAddress userAgent
            "error" false s1)

/-! ### Vault lemmas and claims C3, C4, C6 -/

/-- Number of credential rows stored for one principal. -/
def countRows (u : Nat) (s : VaultState) : Nat :=
  (s.rows.filter (fun r => r.user_id == u)).length

lemma logCredentialAction_rows (a : Bool) (u : Nat) (act : String)
    (ip ua : Option String) (d : String) (succ : Bool) (s : VaultState) :
    (logCredentialAction a u act ip ua d succ s).rows = s.rows := by
  unfold logCredentialAction
  split <;> rfl

lemma filter_ne_then_eq (u : Nat) (l : List StoredCredentials) :
    (l.filter (fun r => r.user_id != u)).filter (fun r => r.user_id == u) = [] := by
  induction l with
  | nil => rfl
  | cons r l ih =>
    by_cases h : r.user_id = u
    · simp [List.filter_cons, h, ih]
    · simp [List.filter_cons, h, ih]

lemma countRows_map_preserve (u : Nat) (f : StoredCredentials → StoredCredentials)
    (hf : ∀ r, (f r).user_id = r.user_id) (l : List StoredCredentials) :
    ((l.map f).filter (fun r => r.user_id == u)).length =
      (l.filter (fun r => r.user_id == u)).length := by
  induction l with
  | nil => rfl
  | cons r l ih =>
    simp only [List.map_cons, List.filter_cons, hf r]
    split <;> simp [ih]

/-- C3. Validation gate of the Credential Vault: when validation fails,
`storeCredentials` raises `InvalidCredentialsError` and the database
state — credential rows and audit log alike — is completely untouched. -/
theorem storeCredentials_validation_gate (o : StoreOracles) (u : Nat)
    (c : AWSCredentials) (ip ua : Option String) (s : VaultState)
    (h : o.validation.valid = false) :
    storeCredentials o u c ip ua s =
      (Except.error (.invalidCredentials (o.validation.error.getD "")), s) := by
  unfold storeCredentials
  simp [h]

/-- C3 witness: the validation gate applied to a concrete failing
validation result, concrete credentials and an empty vault. -/
theorem storeCredentials_validation_gate_witness :
    (StoreOracles.validation ⟨⟨false, some "AWS credential validation failed", none⟩,
        ⟨"c1", "i1", "t1"⟩, ⟨"c2", "i2", "t2"⟩, ⟨"c3", "i3", "t3"⟩,
        true, true, true, 5⟩).valid = false ∧
    storeCredentials ⟨⟨false, some "AWS credential validation failed", none⟩,
        ⟨"c1", "i1", "t1"⟩, ⟨"c2", "i2", "t2"⟩, ⟨"c3", "i3", "t3"⟩,
        true, true, true, 5⟩ 1 ⟨"AKIA", "secret", none, "us-east-1"⟩
        none none ⟨[], [], 0⟩ =
      (Except.error (.invalidCredentials "AWS credential validation failed"),
        ⟨[], [], 0⟩) :=
  ⟨by decide,
    storeCredentials_validation_gate _ 1 ⟨"AKIA", "secret", none, "us-east-1"⟩
      none none ⟨[], [], 0⟩ (by decide)⟩

/-- A successful store leaves exactly one row for the principal. -/
lemma storeCredentials_ok_count (o : StoreOracles) (u : Nat)
    (c : AWSCredentials) (ip ua : Option String) (s : VaultState)
    (row : StoredCredentials) (s' : VaultState)
    (h : storeCredentials o u c ip ua s = (Except.ok row, s')) :
    countRows u s' = 1 := by
  unfold storeCredentials at h
  split at h
  · exact absurd (congrArg Prod.fst h) (by simp)
  · split at h
    · have h2 := congrArg Prod.snd h
      dsimp only at h2
      rw [← h2]
      unfold countRows
      simp only [List.filter_append, List.length_append, filter_ne_then_eq]
      simp [storeRow]
    · exact absurd (congrArg Prod.fst h) (by simp)

/-- A successful update preserves the number of rows of every principal. -/
lemma updateCredentials_ok_count (o : UpdateOracles) (u v : Nat)
    (c : AWSCredentials) (ip ua : Option String) (s : VaultState)
    (row : StoredCredentials) (s' : VaultState)
    (h : updateCredentials o u c ip ua s = (Except.ok row, s')) :
    countRows v s' = countRows v s := by
  unfold updateCredentials at h
  split at h
  · exact absurd (congrArg Prod.fst h) (by simp)
  · split at h
    · exact absurd (congrArg Prod.fst h) (by simp)
    · dsimp only at h
      split at h
      · exact absurd (congrArg Prod.fst h) (by simp)
      · have h2 := congrArg Prod.snd h
        dsimp only at h2
        rw [← h2]
        unfold countRows
        rw [logCredentialAction_rows]
        exact countRows_map_preserve v _ (fun r => by
          by_cases hr : r.user_id = u <;> simp [hr, updateRowFields]) s.rows

/-- An update against a principal with no stored row fails. -/
lemma updateCredentials_fail_of_count_zero (o : UpdateOracles) (u : Nat)
    (c : AWSCredentials) (ip ua : Option String) (s : VaultState)
    (h0 : countRows u s = 0) :
    ∀ row s', updateCredentials o u c ip ua s ≠ (Except.ok row, s') := by
  intro row s' h
  unfold updateCredentials at h
  split at h
  · exact absurd (congrArg Prod.fst h) (by simp)
  · split at h
    · exact absurd (congrArg Prod.fst h) (by simp)
    · dsimp only at h
      have hfind : (s.rows.map (fun r =>
          if r.user_id = u then updateRowFields o c r else r)).find?
            (fun r => r.user_id == u) = none := by
        rw [List.find?_eq_none]
        intro x hx
        rcases List.mem_map.mp hx with ⟨r, hr, rfl⟩
        have hru : r.user_id ≠ u := by
          intro heq
          have hmem : r ∈ s.rows.filter (fun r => r.user_id == u) :=
            List.mem_filter.mpr ⟨hr, by simp [heq]⟩
          have : s.rows.filter (fun r => r.user_id == u) = [] :=
            List.length_eq_zero.mp h0
          simp [this] at hmem
        simp [hru]
      rw [hfind] at h
      exact absurd (congrArg Prod.fst h) (by simp)

/-- One Vault mutation: a `storeCredentials` or an `updateCredentials`
call with its oracle bundle. -/
inductive VaultOp
  | storeOp (o : StoreOracles) (c : AWSCredentials)
  | updateOp (o : UpdateOracles) (c : AWSCredentials)
deriving DecidableEq

/-- Run one Vault mutation for a principal. -/
def runOp (u : Nat) (op : VaultOp) (s : VaultState) :
    Except VaultError StoredCredentials × VaultState :=
  match op with
  | .storeOp o c => storeCredentials o u c none none s
  | .updateOp o c => updateCredentials o u c none none s

/-- Run a sequence of Vault mutations, returning the final state only
when every operation succeeds. -/
def runOps (u : Nat) : List VaultOp → VaultState → Option VaultState
  | [], s => some s
  | op :: rest, s =>
    match runOp u op s with
    | (Except.ok _, s') => runOps u rest s'
    | (Except.error _, _) => none

lemma runOps_preserves_one (u : Nat) (ops : List VaultOp) (s : VaultState)
    (s1 : VaultState) (h1 : countRows u s = 1)
    (h : runOps u ops s = some s1) : countRows u s1 = 1 := by
  induction ops generalizing s with
  | nil =>
    simp only [runOps, Option.some.injEq] at h
    rw [← h]; exact h1
  | cons op rest ih =>
    simp only [runOps] at h
    rcases hop : runOp u op s with ⟨res, s'⟩
    rw [hop] at h
    cases res with
    | error e => simp at h
    | ok row =>
      simp only at h
      apply ih s'
      · cases op with
        | storeOp o c => exact storeCredentials_ok_count o u c none none s row s' hop
        | updateOp o c =>
          rw [updateCredentials_ok_count o u u c none none s row s' hop]
          exact h1
      · exact h

/-- C4. At-most-one credential set: starting from a state with no
credential row for a principal, any nonempty all-successful sequence of
`storeCredentials` / `updateCredentials` calls leaves exactly one
credential row for that principal. -/
theorem credential_rows_exactly_one (u : Nat) (ops : List VaultOp)
    (s0 s1 : VaultState) (h0 : countRows u s0 = 0) (hne : ops ≠ [])
    (h : runOps u ops s0 = some s1) : countRows u s1 = 1 := by
  cases ops with
  | nil => exact absurd rfl hne
  | cons op rest =>
    simp only [runOps] at h
    rcases hop : runOp u op s0 with ⟨res, s'⟩
    rw [hop] at h
    cases res with
    | error e => simp at h
    | ok row =>
      simp only at h
      cases op with
      | storeOp o c =>
        exact runOps_preserves_one u rest s' s1
          (storeCredentials_ok_count o u c none none s0 row s' hop) h
      | updateOp o c =>
        exact absurd hop (updateCredentials_fail_of_count_zero o u c none none s0 h0 row s')

/-- Concrete oracle bundle for the C4 witness store call. -/
def c4store : StoreOracles :=
  ⟨⟨true, none, some "ok"⟩, ⟨"e1", "i1", "t1"⟩, ⟨"e2", "i2", "t2"⟩,
    ⟨"e3", "i3", "t3"⟩, true, true, true, 7⟩

/-- Concrete oracle bundle for the C4 witness update call. -/
def c4update : UpdateOracles :=
  ⟨⟨true, none, none⟩, ⟨"e4", "i4", "t4"⟩, ⟨"e5", "i5", "t5"⟩,
    ⟨"e6", "i6", "t6"⟩, true, true, 9⟩

/-- Concrete operation sequence for the C4 witness. -/
def c4ops : List VaultOp :=
  [VaultOp.storeOp c4store ⟨"AKIA", "sek", none, "us-east-1"⟩,
   VaultOp.updateOp c4update ⟨"AKIB", "sek2", some "tok", "eu-west-1"⟩,
   VaultOp.storeOp c4store ⟨"AKIC", "sek3", none, "ap-south-1"⟩]

/-- Final state of the C4 witness run. -/
def c4final : VaultState := (runOps 1 c4ops ⟨[], [], 0⟩).getD ⟨[], [], 0⟩

/-- C4 witness: the exactly-one-row theorem applied to a concrete
store / update / store sequence from the empty vault. -/
theorem credential_rows_exactly_one_witness :
    countRows 1 ⟨[], [], 0⟩ = 0 ∧ c4ops ≠ [] ∧
    runOps 1 c4ops ⟨[], [], 0⟩ = some c4final ∧ countRows 1 c4final = 1 :=
  ⟨by decide, by decide, by decide,
    credential_rows_exactly_one 1 c4ops ⟨[], [], 0⟩ c4final
      (by decide) (by decide) (by decide)⟩

/-! ### C6: audit-write failures and the primary outcome -/

lemma getCredentials_fst_auditOk (dec : DecryptionInput → Option String)
    (a b : Bool) (u : Nat) (ip ua : Option String) (s : VaultState) :
    (getCredentials dec a u ip ua s).1 = (getCredentials dec b u ip ua s).1 := by
  unfold getCredentials
  dsimp only
  repeat' split
  all_goals rfl

lemma getCredentials_rows (dec : DecryptionInput → Option String) (a : Bool)
    (u : Nat) (ip ua : Option String) (s : VaultState) :
    (getCredentials dec a u ip ua s).2.rows = s.rows := by
  unfold getCredentials
  dsimp only
  repeat' split
  all_goals simp [logCredentialAction_rows]

/-- C6 counterexample oracle bundle: valid credentials, a succeeding
row insert, but a failing in-transaction audit insert. -/
def c6badAudit : StoreOracles :=
  ⟨⟨true, none, none⟩, ⟨"e1", "i1", "t1"⟩, ⟨"e2", "i2", "t2"⟩,
    ⟨"e3", "i3", "t3"⟩, true, false, true, 3⟩

/-- C6 counterexample: in `storeCredentials` the success-path audit
entry is inserted inside the storage transaction, so a failing
audit-log write aborts the whole store: with the audit write failing
the call errors and persists nothing, while the identical call with
the audit write succeeding returns the stored row.  This refutes the
claim that an audit-write failure never changes a Vault operation's
outcome. -/
theorem storeCredentials_tx_audit_failure_changes_outcome :
    (storeCredentials c6badAudit 1 ⟨"AKIA", "sek", none, "us-east-1"⟩
        none none ⟨[], [], 0⟩).1 =
      Except.error (.storageError "Failed to store credentials") ∧
    (storeCredentials c6badAudit 1 ⟨"AKIA", "sek", none, "us-east-1"⟩
        none none ⟨[], [], 0⟩).2.rows = [] ∧
    (storeCredentials { c6badAudit with txAuditOk := true } 1
        ⟨"AKIA", "sek", none, "us-east-1"⟩ none none ⟨[], [], 0⟩).1 =
      Except.ok (storeRow { c6badAudit with txAuditOk := true } 1
        ⟨"AKIA", "sek", none, "us-east-1"⟩ 0) := by
  refine ⟨rfl, rfl, rfl⟩

/-- C6 (amended). Audit-log writes that go through the swallowing
`logCredentialAction` helper never change the primary operation's
outcome: for retrieve, update, delete and revalidate, and for the
failure path of store, the operation's result and the credential rows
are identical whether the audit write succeeds or fails.  The one
exception, forced by the counterexample, is store's success-path audit
entry, which is written inside the storage transaction: its failure
rolls the transaction back, so the store fails and persists nothing. -/
theorem audit_write_failure_isolation
    (dec : DecryptionInput → Option String)
    (validation : CredentialValidationResult) (uo : UpdateOracles)
    (so : StoreOracles) (u now : Nat) (c : AWSCredentials)
    (ip ua : Option String) (s : VaultState)
    (a b a2 b2 deleteOk updateOk ca : Bool)
    (e d : Option String) (ea eb ec : EncryptionResult) :
    ((getCredentials dec a u ip ua s).1 = (getCredentials dec b u ip ua s).1) ∧
    ((getCredentials dec a u ip ua s).2.rows = (getCredentials dec b u ip ua s).2.rows) ∧
    ((updateCredentials { uo with auditOk := a } u c ip ua s).1 =
      (updateCredentials { uo with auditOk := b } u c ip ua s).1) ∧
    ((updateCredentials { uo with auditOk := a } u c ip ua s).2.rows =
      (updateCredentials { uo with auditOk := b } u c ip ua s).2.rows) ∧
    ((deleteCredentials deleteOk a u ip ua s).1 =
      (deleteCredentials deleteOk b u ip ua s).1) ∧
    ((deleteCredentials deleteOk a u ip ua s).2.rows =
      (deleteCredentials deleteOk b u ip ua s).2.rows) ∧
    ((revalidateCredentials dec validation updateOk a2 a now u ip ua s).1 =
      (revalidateCredentials dec validation updateOk b2 b now u ip ua s).1) ∧
    ((revalidateCredentials dec validation updateOk a2 a now u ip ua s).2.rows =
      (revalidateCredentials dec validation updateOk b2 b now u ip ua s).2.rows) ∧
    ((storeCredentials { so with catchAuditOk := a } u c ip ua s).1 =
      (storeCredentials { so with catchAuditOk := b } u c ip ua s).1) ∧
    ((storeCredentials { so with catchAuditOk := a } u c ip ua s).2.rows =
      (storeCredentials { so with catchAuditOk := b } u c ip ua s).2.rows) ∧
    ((storeCredentials ⟨⟨true, e, d⟩, ea, eb, ec, true, false, ca, now⟩
        u c ip ua s).1 =
      Except.error (.storageError "Failed to store credentials")) ∧
    ((storeCredentials ⟨⟨true, e, d⟩, ea, eb, ec, true, false, ca, now⟩
        u c ip ua s).2.rows = s.rows) := by
  refine ⟨getCredentials_fst_auditOk dec a b u ip ua s, ?_, ?_, ?_, ?_, ?_, ?_, ?_, ?_, ?_, ?_, ?_⟩
  · rw [getCredentials_rows, getCredentials_rows]
  · have hfun : (fun r => if r.user_id = u then
          updateRowFields { uo with auditOk := b } c r else r)
        = (fun r => if r.user_id = u then
          updateRowFields { uo with auditOk := a } c r else r) := rfl
    unfold updateCredentials
    dsimp only
    rw [hfun]
    repeat' split
    all_goals rfl
  · have hfun : (fun r => if r.user_id = u then
          updateRowFields { uo with auditOk := b } c r else r)
        = (fun r => if r.user_id = u then
          updateRowFields { uo with auditOk := a } c r else r) := rfl
    unfold updateCredentials
    dsimp only
    rw [hfun]
    repeat' split
    all_goals simp [logCredentialAction_rows]
  · unfold deleteCredentials
    split <;> rfl
  · unfold deleteCredentials
    split <;> simp [logCredentialAction_rows]
  · unfold revalidateCredentials
    have hfst := getCredentials_fst_auditOk dec a2 b2 u none none s
    rcases hA : getCredentials dec a2 u none none s with ⟨r1, s1⟩
    rcases hB : getCredentials dec b2 u none none s with ⟨r2, s2⟩
    rw [hA, hB] at hfst
    dsimp only at hfst
    rw [← hfst]
    cases r1 with
    | error err => rfl
    | ok v =>
      cases v with
      | none => rfl
      | some creds =>
        dsimp only
        split <;> rfl
  · unfold revalidateCredentials
    have hfst := getCredentials_fst_auditOk dec a2 b2 u none none s
    have hra := getCredentials_rows dec a2 u none none s
    have hrb := getCredentials_rows dec b2 u none none s
    rcases hA : getCredentials dec a2 u none none s with ⟨r1, s1⟩
    rcases hB : getCredentials dec b2 u none none s with ⟨r2, s2⟩
    rw [hA] at hra
    rw [hB] at hrb
    rw [hA, hB] at hfst
    dsimp only at hfst hra hrb
    rw [← hfst]
    cases r1 with
    | error err => simp [logCredentialAction_rows, hra, hrb]
    | ok v =>
      cases v with
      | none => simp [hra, hrb]
      | some creds =>
        dsimp only
        split
        · simp [logCredentialAction_rows, hra, hrb]
        · simp [logCredentialAction_rows, hra, hrb]
  · unfold storeCredentials
    dsimp only
    repeat' split
    all_goals rfl
  · unfold storeCredentials
    dsimp only
    repeat' split
    all_goals simp [logCredentialAction_rows, storeRow]
  · unfold storeCredentials
    dsimp only
    rfl
  · unfold storeCredentials
    dsimp only
    simp [logCredentialAction_rows]

/-! ### SES service, DNS record generator and domain service
(second half of src/server/services/aws-credentials.ts) -/

/-- Return shape of `SESService.createDomainIdentity` (interface
`DomainIdentityResult`). -/
structure DomainIdentityResult where
  success : Bool
  verificationToken : Option String
  dkimTokens : Option (List String)
  error : Option String
deriving DecidableEq, Repr

/-- Return shape of `SESService.getDomainVerificationStatus` (interface
`VerificationStatus`). -/
structure VerificationStatus where
  verified : Bool
  pending : Bool
  dkimEnabled : Bool
  dkimTokens : Option (List String)
  verificationToken : Option String
deriving DecidableEq, Repr

/-- What the SES `GetIdentityVerificationAttributes` and
`GetIdentityDkimAttributes` calls report for a domain; each field is
`none` when SES has no entry for it.  The oracle is `none` at the outer
level when the calls throw. -/
structure SESRawAttrs where
  verificationStatus : Option String
  verificationToken : Option String
  dkimEnabled : Option Bool
  dkimTokens : Option (List String)
deriving DecidableEq, Repr

/-- What the SES `VerifyDomainIdentity` / `GetIdentityDkimAttributes`
calls report during identity creation; `none` at the outer level models
a thrown exception. -/
structure CreateIdentityRaw where
  verificationToken : Option String
  dkimTokens : Option (List String)
deriving DecidableEq, Repr

namespace SESService

/-- Model of `SESService.createDomainIdentity`: any thrown provider
error is caught and converted to `{success: false, error}`; a missing
verification token is likewise an error result; otherwise the token and
the DKIM tokens (defaulted to `[]`) are returned. -/
def createDomainIdentity (oracle : Option CreateIdentityRaw) : DomainIdentityResult :=
  match oracle with
  | none => ⟨false, none, none, some "Failed to create SES domain identity"⟩
  | some raw =>
    match raw.verificationToken with
    | none => ⟨false, none, none, some "Failed to get verification token from SES"⟩
    | some tok => ⟨true, some tok, some (raw.dkimTokens.getD []), none⟩

/-- Model of `SESService.getDomainVerificationStatus`: `verified` iff
SES reports `Success`, `pending` iff it reports `Pending`; any thrown
error is caught and converted into
`{verified: false, pending: false, dkimEnabled: false}` with the token
fields left undefined. -/
def getDomainVerificationStatus (oracle : Option SESRawAttrs) : VerificationStatus :=
  match oracle with
  | none => ⟨false, false, false, none, none⟩
  | some attrs =>
    ⟨attrs.verificationStatus == some "Success",
      attrs.verificationStatus == some "Pending",
      attrs.dkimEnabled.getD false,
      some (attrs.dkimTokens.getD []),
      attrs.verificationToken⟩

/-- Model of `SESService.deleteDomainIdentity`: returns `true` on
success and catches any thrown error into `false`. -/
def deleteDomainIdentity (oracle : Option Unit) : Bool := oracle.isSome

end SESService

/-- DNS record kinds produced by the generator. -/
inductive RecordType
  | TXT
  | CNAME
  | MX
deriving DecidableEq, Repr

/-- DNS record purposes produced by the generator. -/
inductive RecordPurpose
  | verification
  | dkim
  | spf
  | dmarc
  | mx
deriving DecidableEq, Repr

/-- A generated DNS record (interface `DNSRecord`). -/
structure DNSRecord where
  type : RecordType
  name : String
  value : String
  ttl : Nat
  priority : Option Nat
  purpose : RecordPurpose
deriving DecidableEq, Repr

namespace DNSRecordGenerator

/-- Model of `generateVerificationRecord`. -/
def generateVerificationRecord (domain token : String) : List DNSRecord :=
  [⟨.TXT, "_amazonses." ++ domain, token, 300, none, .verification⟩]

/-- Model of `generateDKIMRecords`. -/
def generateDKIMRecords (domain : String) (tokens : List String) : List DNSRecord :=
  tokens.map (fun token =>
    ⟨.CNAME, token ++ "._domainkey." ++ domain,
      token ++ ".dkim.amazonses.com", 300, none, .dkim⟩)

/-- Model of `generateSPFRecord`. -/
def generateSPFRecord (domain : String) : DNSRecord :=
  ⟨.TXT, domain, "v=spf1 include:amazonses.com ~all", 300, none, .spf⟩

/-- Model of `generateDMARCRecord`. -/
def generateDMARCRecord (domain : String) : DNSRecord :=
  ⟨.TXT, "_dmarc." ++ domain,
    "v=DMARC1; p=quarantine; rua=mailto:postmaster@" ++ domain, 300, none, .dmarc⟩

/-- Model of `generateMXRecords`. -/
def generateMXRecords (domain region : String) : List DNSRecord :=
  [⟨.MX, domain, "inbound-smtp." ++ region ++ ".amazonaws.com", 300, some 10, .mx⟩]

/-- Model of `generateAllDNSRecords`: verification record, DKIM
records, SPF record, DMARC record, MX records, in that order. -/
def generateAllDNSRecords (domain verificationToken : String)
    (dkimTokens : List String) (region : String) : List DNSRecord :=
  generateVerificationRecord domain verificationToken ++
    generateDKIMRecords domain dkimTokens ++
    [generateSPFRecord domain] ++
    [generateDMARCRecord domain] ++
    generateMXRecords domain region

end DNSRecordGenerator

/-- A `domains` table row (interface `Domain`). -/
structure DomainRow where
  id : Nat
  userId : Nat
  domainName : String
  verificationStatus : String
  verificationToken : Option String
  dkimTokens : List String
  dnsRecordsGenerated : Bool
  verificationAttempts : Nat
  lastVerificationAttempt : Option Nat
  verifiedAt : Option Nat
  createdAt : Nat
  updatedAt : Nat
deriving DecidableEq, Repr

/-- A `dns_records` table row. -/
structure DNSRecordRow where
  domainId : Nat
  recordType : RecordType
  name : String
  value : String
  ttl : Nat
  priority : Option Nat
  recordPurpose : RecordPurpose
deriving DecidableEq, Repr

/-- The persistent state seen by the Domain Provisioning Engine. -/
structure DomainState where
  domains : List DomainRow
  dnsRecords : List DNSRecordRow
  nextId : Nat
deriving DecidableEq, Repr

/-- Trace of external identity-provider calls made by an operation. -/
inductive ExtCall
  | createIdentity (domain : String)
  | deleteIdentity (domain : String)
deriving DecidableEq, Repr

/-- Return shape of `DomainService.addDomain`. -/
structure AddDomainResult where
  success : Bool
  domain : Option DomainRow
  error : Option String
deriving DecidableEq, Repr

/-- Return shape of `DomainService.checkDomainVerification`. -/
structure CheckVerificationResult where
  success : Bool
  verified : Option Bool
  error : Option String
deriving DecidableEq, Repr

/-- Return shape of `DomainService.deleteDomain`. -/
structure DeleteDomainResult where
  success : Bool
  error : Option String
deriving DecidableEq, Repr

/-- Character class `[a-z0-9]` of the domain regex, with its `i` flag. -/
def isAlnum (c : Char) : Bool :=
  (97 ≤ c.toNat && c.toNat ≤ 122) || (65 ≤ c.toNat && c.toNat ≤ 90) ||
    (48 ≤ c.toNat && c.toNat ≤ 57)

/-- Split a character string on the dot separator (the structure of the
anchored `(label\.)+label` regex). -/
def splitOnDot : List Char → List (List Char)
  | [] => [[]]
  | c :: rest =>
    let ps := splitOnDot rest
    if c = '.' then [] :: ps
    else
      match ps with
      | p :: ps2 => (c :: p) :: ps2
      | [] => [[c]]

/-- One regex label: `[a-z0-9](?:[a-z0-9-]{0,61}[a-z0-9])?` — a single
alphanumeric character, or an alphanumeric first and last character
with up to 61 alphanumeric-or-hyphen characters between them. -/
def isValidLabel (l : List Char) : Bool :=
  match l with
  | [] => false
  | [c] => isAlnum c
  | c :: rest =>
    isAlnum c && decide (rest.length ≤ 62) &&
      (match rest.getLast? with
       | some d => isAlnum d
       | none => false) &&
      rest.dropLast.all (fun x => isAlnum x || x = '-')

namespace DomainService

/-- Model of `DomainService.isValidDomain`: the anchored
`(label\.)+label` regex (at least two labels) together with the
253-character bound. -/
def isValidDomain (domain : String) : Bool :=
  decide (2 ≤ (splitOnDot domain.data).length) &&
    (splitOnDot domain.data).all isValidLabel &&
    decide (domain.data.length ≤ 253)

/-- Model of `findDomainByName` (`SELECT ... WHERE user_id AND
domain_name`). -/
def findDomainByName (userId : Nat) (domainName : String) (s : DomainState) :
    Option DomainRow :=
  s.domains.find? (fun r => r.userId == userId && r.domainName == domainName)

/-- Model of `findDomainById` (`SELECT ... WHERE id`). -/
def findDomainById (domainId : Nat) (s : DomainState) : Option DomainRow :=
  s.domains.find? (fun r => r.id == domainId)

/-- A generated DNS record inserted as a row for a domain. -/
def dnsRecordRow (domainId : Nat) (r : DNSRecord) : DNSRecordRow :=
  ⟨domainId, r.type, r.name, r.value, r.ttl, r.priority, r.purpose⟩

/-- Model of `DomainService.addDomain`: reject an invalid name, then a
per-user duplicate, both before any external call; then call
`createDomainIdentity` and return its error without persisting when it
fails; otherwise, inside one transaction, insert the `pending` domain
row, insert the full generated DNS record set (with the hard-coded
`us-east-1` region) and mark `dns_records_generated`.  The returned
domain object is the row as inserted, before that flag update.  A
failing transaction is rolled back and reported as an error. -/
def addDomain (createOracle : Option CreateIdentityRaw) (dbOk : Bool)
    (now userId : Nat) (domainName : String) (s : DomainState) :
    AddDomainResult × DomainState × List ExtCall :=
  if ¬ isValidDomain domainName then
    (⟨false, none, some "Invalid domain name format"⟩, s, [])
  else
    match findDomainByName userId domainName s with
    | some _ => (⟨false, none, some "Domain already exists for this user"⟩, s, [])
    | none =>
      let sesResult := SESService.createDomainIdentity createOracle
      if ¬ sesResult.success then
        (⟨false, none, sesResult.error⟩, s, [ExtCall.createIdentity domainName])
      else if dbOk then
        let newDomain : DomainRow :=
          ⟨s.nextId, userId, domainName, "pending", sesResult.verificationToken,
            sesResult.dkimTokens.getD [], false, 0, none, none, now, now⟩
        let dnsRecords := DNSRecordGenerator.generateAllDNSRecords domainName
          (sesResult.verificationToken.getD "") (sesResult.dkimTokens.getD [])
          "us-east-1"
        (⟨true, some newDomain, none⟩,
          ⟨s.domains ++ [{ newDomain with dnsRecordsGenerated := true }],
            s.dnsRecords ++ dnsRecords.map (dnsRecordRow newDomain.id),
            s.nextId + 1⟩,
          [ExtCall.createIdentity domainName])
      else
        (⟨false, none, some "Failed to add domain"⟩, s,
          [ExtCall.createIdentity domainName])

/-- Model of `DomainService.checkDomainVerification`: authorization
check (the row must exist and belong to the caller), then fetch the
external status (which never throws: provider errors are already folded
into `{verified: false, pending: false}`), map it to the local status
(`verified` / `pending` / `failed`), and update the row: new status,
`last_verification_attempt := NOW()`, attempt counter incremented, and
`verified_at := CASE WHEN verified THEN NOW() ELSE verified_at END`. -/
def checkDomainVerification (statusOracle : Option SESRawAttrs) (dbOk : Bool)
    (now userId domainId : Nat) (s : DomainState) :
    CheckVerificationResult × DomainState :=
  match findDomainById domainId s with
  | none => (⟨false, none, some "Domain not found"⟩, s)
  | some domain =>
    if domain.userId ≠ userId then (⟨false, none, some "Domain not found"⟩, s)
    else
      let status := SESService.getDomainVerificationStatus statusOracle
      let newStatus :=
        if status.verified then "verified"
        else if status.pending then "pending" else "failed"
      if dbOk then
        (⟨true, some status.verified, none⟩,
          { s with domains := s.domains.map (fun r =>
              if r.id == domainId then
                { r with
                  verificationStatus := newStatus
                  lastVerificationAttempt := some now
                  verificationAttempts := r.verificationAttempts + 1
                  verifiedAt := if status.verified then some now else r.verifiedAt }
              else r) })
      else (⟨false, none, some "Failed to check verification"⟩, s)

set_option linter.unusedVariables false in
/-- Model of `DomainService.deleteDomain`: authorization check, then a
best-effort external `deleteDomainIdentity` call whose boolean result
is discarded by the source (the call itself never throws), then the
local row delete, which cascades to the domain's DNS records. -/
def deleteDomain (extOracle : Option Unit) (dbOk : Bool)
    (userId domainId : Nat) (s : DomainState) :
    DeleteDomainResult × DomainState × List ExtCall :=
  match findDomainById domainId s with
  | none => (⟨false, some "Domain not found"⟩, s, [])
  | some domain =>
    if domain.userId ≠ userId then (⟨false, some "Domain not found"⟩, s, [])
    else if dbOk then
      (⟨true, none⟩,
        ⟨s.domains.filter (fun r => r.id != domainId),
          s.dnsRecords.filter (fun r => r.domainId != domainId),
          s.nextId⟩,
        [ExtCall.deleteIdentity domain.domainName])
    else
      (⟨false, some "Failed to delete domain"⟩, s,
        [ExtCall.deleteIdentity domain.domainName])

end DomainService

/-! ### Claims C5, C7, C2, C8, C9, C10 -/

/-- C5. The DNS Record Deriver is pure and deterministic: two calls on
the same inputs yield the same list; the records appear in the fixed
order ownership-verification TXT, one DKIM CNAME per signing token,
SPF TXT, DMARC TXT, MX; and the record count is
`1 + length(signingTokens) + 3`. -/
theorem generateAllDNSRecords_deterministic_count_order
    (domain token region : String) (dkimTokens : List String) :
    DNSRecordGenerator.generateAllDNSRecords domain token dkimTokens region =
      DNSRecordGenerator.generateAllDNSRecords domain token dkimTokens region ∧
    (DNSRecordGenerator.generateAllDNSRecords domain token dkimTokens region).map
        DNSRecord.purpose =
      RecordPurpose.verification ::
        (dkimTokens.map fun _ => RecordPurpose.dkim) ++
          [RecordPurpose.spf, RecordPurpose.dmarc, RecordPurpose.mx] ∧
    (DNSRecordGenerator.generateAllDNSRecords domain token dkimTokens region).length =
      1 + dkimTokens.length + 3 := by
  refine ⟨rfl, ?_, ?_⟩
  · simp [DNSRecordGenerator.generateAllDNSRecords,
      DNSRecordGenerator.generateVerificationRecord,
      DNSRecordGenerator.generateDKIMRecords,
      DNSRecordGenerator.generateSPFRecord,
      DNSRecordGenerator.generateDMARCRecord,
      DNSRecordGenerator.generateMXRecords, List.map_map, Function.comp_def]
  · simp [DNSRecordGenerator.generateAllDNSRecords,
      DNSRecordGenerator.generateVerificationRecord,
      DNSRecordGenerator.generateDKIMRecords,
      DNSRecordGenerator.generateSPFRecord,
      DNSRecordGenerator.generateDMARCRecord,
      DNSRecordGenerator.generateMXRecords]
    omega

lemma find?_map_ite_id (g : DomainRow → DomainRow)
    (hg : ∀ r, (g r).id = r.id) (i : Nat) (l : List DomainRow)
    (d : DomainRow) (h : l.find? (fun r => r.id == i) = some d) :
    (l.map (fun r => if r.id == i then g r else r)).find?
      (fun r => r.id == i) = some (g d) := by
  induction l with
  | nil => simp at h
  | cons r l ih =>
    cases hr : (r.id == i) with
    | true =>
      rw [List.find?_cons_of_pos (p := fun r : DomainRow => r.id == i) _ hr] at h
      have hd : r = d := by simpa using h
      subst hd
      rw [List.map_cons, if_pos hr]
      exact List.find?_cons_of_pos (p := fun r : DomainRow => r.id == i) _
        (by show ((g r).id == i) = true; rw [hg r]; exact hr)
    | false =>
      rw [List.find?_cons_of_neg (p := fun r : DomainRow => r.id == i) _ (by simp [hr])] at h
      rw [List.map_cons, if_neg (by simp [hr])]
      rw [List.find?_cons_of_neg (p := fun r : DomainRow => r.id == i) _ (by simp [hr])]
      exact ih h

/-- Evaluation of an authorized `checkDomainVerification` call with a
succeeding database write: the result reports the external verified
flag and the matching row is updated in place. -/
lemma checkDomainVerification_eq (statusOracle : Option SESRawAttrs)
    (now userId domainId : Nat) (s : DomainState) (d : DomainRow)
    (hfind : DomainService.findDomainById domainId s = some d)
    (hown : d.userId = userId) :
    DomainService.checkDomainVerification statusOracle true now userId domainId s =
      (⟨true, some (SESService.getDomainVerificationStatus statusOracle).verified, none⟩,
        { s with domains := s.domains.map (fun r =>
            if r.id == domainId then
              { r with
                verificationStatus :=
                  if (SESService.getDomainVerificationStatus statusOracle).verified then
                    "verified"
                  else if (SESService.getDomainVerificationStatus statusOracle).pending then
                    "pending"
                  else "failed"
                lastVerificationAttempt := some now
                verificationAttempts := r.verificationAttempts + 1
                verifiedAt :=
                  if (SESService.getDomainVerificationStatus statusOracle).verified then
                    some now
                  else r.verifiedAt }
            else r) }) := by
  unfold DomainService.checkDomainVerification
  rw [hfind]
  dsimp only
  rw [if_neg (by simp [hown])]
  rfl

/-- The row update applied by an authorized `checkDomainVerification`
call, as a function of the external status. -/
def checkUpdateRow (status : VerificationStatus) (now : Nat)
    (r : DomainRow) : DomainRow :=
  { r with
    verificationStatus :=
      if status.verified then "verified"
      else if status.pending then "pending" else "failed"
    lastVerificationAttempt := some now
    verificationAttempts := r.verificationAttempts + 1
    verifiedAt := if status.verified then some now else r.verifiedAt }

/-- An authorized check leaves the matching row updated by
`checkUpdateRow`. -/
lemma checkDomainVerification_find (statusOracle : Option SESRawAttrs)
    (now userId domainId : Nat) (s : DomainState) (d : DomainRow)
    (hfind : DomainService.findDomainById domainId s = some d)
    (hown : d.userId = userId) :
    DomainService.findDomainById domainId
        (DomainService.checkDomainVerification statusOracle true now userId domainId s).2 =
      some (checkUpdateRow (SESService.getDomainVerificationStatus statusOracle) now d) := by
  rw [checkDomainVerification_eq statusOracle now userId domainId s d hfind hown]
  unfold DomainService.findDomainById
  dsimp only
  exact find?_map_ite_id
    (checkUpdateRow (SESService.getDomainVerificationStatus statusOracle) now)
    (fun r => rfl) domainId s.domains d hfind

/-- C7. For every authorized `checkDomainVerification` call (row found
and owned by the caller, database write succeeding), the call succeeds,
and the row's new local status is `verified` iff the external status
reports verified, `pending` when it reports pending but not verified,
and `failed` otherwise; the verification-attempt counter is incremented
by exactly one and `last_verification_attempt` is stamped with the
current time. -/
theorem checkDomainVerification_status_mapping
    (statusOracle : Option SESRawAttrs) (now userId domainId : Nat)
    (s : DomainState) (d : DomainRow)
    (hfind : DomainService.findDomainById domainId s = some d)
    (hown : d.userId = userId) :
    (DomainService.checkDomainVerification statusOracle true now userId domainId s).1.success = true ∧
    ∃ r, DomainService.findDomainById domainId
        (DomainService.checkDomainVerification statusOracle true now userId domainId s).2 = some r ∧
      (r.verificationStatus = "verified" ↔
        (SESService.getDomainVerificationStatus statusOracle).verified = true) ∧
      ((SESService.getDomainVerificationStatus statusOracle).verified = false →
        (SESService.getDomainVerificationStatus statusOracle).pending = true →
        r.verificationStatus = "pending") ∧
      ((SESService.getDomainVerificationStatus statusOracle).verified = false →
        (SESService.getDomainVerificationStatus statusOracle).pending = false →
        r.verificationStatus = "failed") ∧
      r.verificationAttempts = d.verificationAttempts + 1 ∧
      r.lastVerificationAttempt = some now := by
  refine ⟨?_, ?_⟩
  · rw [checkDomainVerification_eq statusOracle now userId domainId s d hfind hown]
  · refine ⟨checkUpdateRow (SESService.getDomainVerificationStatus statusOracle) now d,
      checkDomainVerification_find statusOracle now userId domainId s d hfind hown,
      ?_, ?_, ?_, rfl, rfl⟩
    · cases hv : (SESService.getDomainVerificationStatus statusOracle).verified <;>
        cases hp : (SESService.getDomainVerificationStatus statusOracle).pending <;>
          simp [checkUpdateRow, hv, hp]
    · intro hv hp
      simp [checkUpdateRow, hv, hp]
    · intro hv hp
      simp [checkUpdateRow, hv, hp]

/-- Concrete domain row for witnesses: id 1, owned by principal 1,
still pending. -/
def sampleDomain : DomainRow :=
  ⟨1, 1, "example.com", "pending", some "tok123", ["a1", "a2"], true, 0,
    none, none, 0, 0⟩

/-- Concrete engine state holding `sampleDomain`. -/
def sampleState : DomainState := ⟨[sampleDomain], [], 2⟩

/-- Concrete SES answer reporting a still-pending verification. -/
def pendingAttrs : SESRawAttrs := ⟨some "Pending", some "tok123", some false, some []⟩

/-- C7 witness: the status-mapping theorem applied to `sampleDomain`
with the provider reporting `Pending`. -/
theorem checkDomainVerification_status_mapping_witness :
    DomainService.findDomainById 1 sampleState = some sampleDomain ∧
    sampleDomain.userId = 1 ∧
    ((DomainService.checkDomainVerification (some pendingAttrs) true 11 1 1 sampleState).1.success = true ∧
    ∃ r, DomainService.findDomainById 1
        (DomainService.checkDomainVerification (some pendingAttrs) true 11 1 1 sampleState).2 = some r ∧
      (r.verificationStatus = "verified" ↔
        (SESService.getDomainVerificationStatus (some pendingAttrs)).verified = true) ∧
      ((SESService.getDomainVerificationStatus (some pendingAttrs)).verified = false →
        (SESService.getDomainVerificationStatus (some pendingAttrs)).pending = true →
        r.verificationStatus = "pending") ∧
      ((SESService.getDomainVerificationStatus (some pendingAttrs)).verified = false →
        (SESService.getDomainVerificationStatus (some pendingAttrs)).pending = false →
        r.verificationStatus = "failed") ∧
      r.verificationAttempts = sampleDomain.verificationAttempts + 1 ∧
      r.lastVerificationAttempt = some 11) :=
  ⟨by decide, by decide,
    checkDomainVerification_status_mapping (some pendingAttrs) 11 1 1
      sampleState sampleDomain (by decide) (by decide)⟩

/-- Concrete SES answer reporting a successful verification. -/
def verifiedAttrs : SESRawAttrs := ⟨some "Success", some "tok123", some true, some ["a1", "a2"]⟩

/-- State after a first verified check at time 10. -/
def c2afterFirst : DomainState :=
  (DomainService.checkDomainVerification (some verifiedAttrs) true 10 1 1 sampleState).2

/-- State after a second verified check at time 20. -/
def c2afterSecond : DomainState :=
  (DomainService.checkDomainVerification (some verifiedAttrs) true 20 1 1 c2afterFirst).2

/-- C2 counterexample: `checkDomainVerification` writes
`verified_at = CASE WHEN verified THEN NOW() ELSE verified_at END`, so
a second check that again observes the domain verified re-stamps
`verified_at` with the new time (20) instead of leaving the first stamp
(10) unchanged.  This refutes the claim that `verified_at` is stamped
exactly once. -/
theorem checkDomainVerification_restamps_verified_at :
    c2afterFirst.domains.map DomainRow.verifiedAt = [some 10] ∧
    c2afterSecond.domains.map DomainRow.verifiedAt = [some 20] := by
  constructor <;> rfl

/-- C2 (amended). For every authorized `checkDomainVerification` call,
`verified_at` is stamped with the current time on every call that
observes the domain externally verified — the first such call sets it
and later verified checks re-stamp (overwrite) it — while a call that
does not observe the domain verified leaves `verified_at` unchanged. -/
theorem checkDomainVerification_verified_at_stamping
    (statusOracle : Option SESRawAttrs) (now userId domainId : Nat)
    (s : DomainState) (d : DomainRow)
    (hfind : DomainService.findDomainById domainId s = some d)
    (hown : d.userId = userId) :
    ∃ r, DomainService.findDomainById domainId
        (DomainService.checkDomainVerification statusOracle true now userId domainId s).2 = some r ∧
      ((SESService.getDomainVerificationStatus statusOracle).verified = true →
        r.verifiedAt = some now) ∧
      ((SESService.getDomainVerificationStatus statusOracle).verified = false →
        r.verifiedAt = d.verifiedAt) := by
  refine ⟨checkUpdateRow (SESService.getDomainVerificationStatus statusOracle) now d,
    checkDomainVerification_find statusOracle now userId domainId s d hfind hown,
    ?_, ?_⟩
  · intro hv
    simp [checkUpdateRow, hv]
  · intro hv
    simp [checkUpdateRow, hv]

/-- C2 witness: the amended stamping theorem applied to `sampleDomain`
with the provider reporting `Success`. -/
theorem checkDomainVerification_verified_at_stamping_witness :
    DomainService.findDomainById 1 sampleState = some sampleDomain ∧
    sampleDomain.userId = 1 ∧
    (∃ r, DomainService.findDomainById 1
        (DomainService.checkDomainVerification (some verifiedAttrs) true 10 1 1 sampleState).2 = some r ∧
      ((SESService.getDomainVerificationStatus (some verifiedAttrs)).verified = true →
        r.verifiedAt = some 10) ∧
      ((SESService.getDomainVerificationStatus (some verifiedAttrs)).verified = false →
        r.verifiedAt = sampleDomain.verifiedAt)) :=
  ⟨by decide, by decide,
    checkDomainVerification_verified_at_stamping (some verifiedAttrs) 10 1 1
      sampleState sampleDomain (by decide) (by decide)⟩

/-- C8. Best-effort external deletion in `deleteDomain`: when the
external identity removal fails (`deleteDomainIdentity` catches the
provider error and returns `false`), the authorized call still deletes
the local domain row and its cascaded DNS records and returns success,
after having attempted exactly one external deletion call. -/
theorem deleteDomain_best_effort (userId domainId : Nat) (s : DomainState)
    (d : DomainRow)
    (hfind : DomainService.findDomainById domainId s = some d)
    (hown : d.userId = userId) :
    SESService.deleteDomainIdentity none = false ∧
    (DomainService.deleteDomain none true userId domainId s).1.success = true ∧
    (∀ r ∈ (DomainService.deleteDomain none true userId domainId s).2.1.domains,
      r.id ≠ domainId) ∧
    (∀ r ∈ (DomainService.deleteDomain none true userId domainId s).2.1.dnsRecords,
      r.domainId ≠ domainId) ∧
    (DomainService.deleteDomain none true userId domainId s).2.2 =
      [ExtCall.deleteIdentity d.domainName] := by
  have hdel : DomainService.deleteDomain none true userId domainId s =
      (⟨true, none⟩,
        ⟨s.domains.filter (fun r => r.id != domainId),
          s.dnsRecords.filter (fun r => r.domainId != domainId),
          s.nextId⟩,
        [ExtCall.deleteIdentity d.domainName]) := by
    unfold DomainService.deleteDomain
    rw [hfind]
    dsimp only
    rw [if_neg (by simp [hown])]
    rfl
  rw [hdel]
  refine ⟨rfl, rfl, ?_, ?_, rfl⟩
  · intro r hr
    simpa using (List.mem_filter.mp hr).2
  · intro r hr
    simpa using (List.mem_filter.mp hr).2

/-- C8 witness: the best-effort deletion theorem applied to
`sampleDomain` while the provider call fails. -/
theorem deleteDomain_best_effort_witness :
    DomainService.findDomainById 1 sampleState = some sampleDomain ∧
    sampleDomain.userId = 1 ∧
    (SESService.deleteDomainIdentity none = false ∧
    (DomainService.deleteDomain none true 1 1 sampleState).1.success = true ∧
    (∀ r ∈ (DomainService.deleteDomain none true 1 1 sampleState).2.1.domains,
      r.id ≠ 1) ∧
    (∀ r ∈ (DomainService.deleteDomain none true 1 1 sampleState).2.1.dnsRecords,
      r.domainId ≠ 1) ∧
    (DomainService.deleteDomain none true 1 1 sampleState).2.2 =
      [ExtCall.deleteIdentity sampleDomain.domainName]) :=
  ⟨by decide, by decide,
    deleteDomain_best_effort 1 1 sampleState sampleDomain (by decide) (by decide)⟩

/-- C9. Rejection paths of `addDomain`: a malformed name, or a name
already registered for the principal, is rejected with no external
identity call and no state change; and on valid fresh input whose
external `createIdentity` call fails, the error is returned with the
external call made but nothing persisted. -/
theorem addDomain_rejects_and_no_persist
    (createOracle : Option CreateIdentityRaw) (dbOk : Bool)
    (now userId : Nat) (domainName : String) (s : DomainState) :
    (DomainService.isValidDomain domainName = false →
      DomainService.addDomain createOracle dbOk now userId domainName s =
        (⟨false, none, some "Invalid domain name format"⟩, s, [])) ∧
    (∀ d, DomainService.isValidDomain domainName = true →
      DomainService.findDomainByName userId domainName s = some d →
      DomainService.addDomain createOracle dbOk now userId domainName s =
        (⟨false, none, some "Domain already exists for this user"⟩, s, [])) ∧
    ((SESService.createDomainIdentity createOracle).success = false →
      DomainService.isValidDomain domainName = true →
      DomainService.findDomainByName userId domainName s = none →
      DomainService.addDomain createOracle dbOk now userId domainName s =
        (⟨false, none, (SESService.createDomainIdentity createOracle).error⟩, s,
          [ExtCall.createIdentity domainName])) := by
  refine ⟨?_, ?_, ?_⟩
  · intro hbad
    unfold DomainService.addDomain
    rw [if_pos (by simp [hbad])]
  · intro d hok hdup
    unfold DomainService.addDomain
    rw [if_neg (by simp [hok]), hdup]
  · intro hses hok hfresh
    unfold DomainService.addDomain
    rw [if_neg (by simp [hok]), hfresh]
    dsimp only
    rw [if_pos (by simp [hses])]

/-- C9 witness: the rejection theorem applied at a malformed name
(single label), a duplicate name, and a fresh valid name whose
external identity creation throws. -/
theorem addDomain_rejects_and_no_persist_witness :
    (DomainService.isValidDomain "localhost" = false ∧
      DomainService.addDomain none true 4 1 "localhost" sampleState =
        (⟨false, none, some "Invalid domain name format"⟩, sampleState, [])) ∧
    (DomainService.isValidDomain "example.com" = true ∧
      DomainService.findDomainByName 1 "example.com" sampleState = some sampleDomain ∧
      DomainService.addDomain none true 4 1 "example.com" sampleState =
        (⟨false, none, some "Domain already exists for this user"⟩, sampleState, [])) ∧
    ((SESService.createDomainIdentity none).success = false ∧
      DomainService.isValidDomain "fresh.example" = true ∧
      DomainService.findDomainByName 1 "fresh.example" sampleState = none ∧
      DomainService.addDomain none true 4 1 "fresh.example" sampleState =
        (⟨false, none, (SESService.createDomainIdentity none).error⟩, sampleState,
          [ExtCall.createIdentity "fresh.example"])) :=
  ⟨⟨by decide,
      (addDomain_rejects_and_no_persist none true 4 1 "localhost" sampleState).1
        (by decide)⟩,
    ⟨by decide, by decide,
      (addDomain_rejects_and_no_persist none true 4 1 "example.com" sampleState).2.1
        sampleDomain (by decide) (by decide)⟩,
    ⟨by decide, by decide, by decide,
      (addDomain_rejects_and_no_persist none true 4 1 "fresh.example" sampleState).2.2
        (by decide) (by decide) (by decide)⟩⟩

/-- Concrete SES answer reporting a definitively failed verification. -/
def failedAttrs : SESRawAttrs := ⟨some "Failed", none, none, none⟩

/-- C10. When the external verification-status fetch throws, the
Identity Provisioning Client swallows the error into
`{verified: false, pending: false, dkimEnabled: false}`; consequently
an authorized `checkVerification` on that domain behaves exactly as if
the provider had reported a definitive failure: it sets the local
status to `failed`, increments the attempt counter, and returns
success with `verified = false` — the provider outage is
indistinguishable from a failed verification at the public
interface. -/
theorem ses_status_error_yields_failed (now userId domainId : Nat)
    (s : DomainState) (d : DomainRow)
    (hfind : DomainService.findDomainById domainId s = some d)
    (hown : d.userId = userId) :
    SESService.getDomainVerificationStatus none =
      ⟨false, false, false, none, none⟩ ∧
    DomainService.checkDomainVerification none true now userId domainId s =
      DomainService.checkDomainVerification (some failedAttrs) true now userId domainId s ∧
    (DomainService.checkDomainVerification none true now userId domainId s).1 =
      ⟨true, some false, none⟩ ∧
    ∃ r, DomainService.findDomainById domainId
        (DomainService.checkDomainVerification none true now userId domainId s).2 = some r ∧
      r.verificationStatus = "failed" ∧
      r.verificationAttempts = d.verificationAttempts + 1 := by
  refine ⟨rfl, ?_, ?_, ?_⟩
  · rw [checkDomainVerification_eq none now userId domainId s d hfind hown,
      checkDomainVerification_eq (some failedAttrs) now userId domainId s d hfind hown]
    rfl
  · rw [checkDomainVerification_eq none now userId domainId s d hfind hown]
    rfl
  · exact ⟨checkUpdateRow (SESService.getDomainVerificationStatus none) now d,
      checkDomainVerification_find none now userId domainId s d hfind hown,
      rfl, rfl⟩

/-- C10 witness: the provider-outage theorem applied to
`sampleDomain`. -/
theorem ses_status_error_yields_failed_witness :
    DomainService.findDomainById 1 sampleState = some sampleDomain ∧
    sampleDomain.userId = 1 ∧
    (SESService.getDomainVerificationStatus none =
      ⟨false, false, false, none, none⟩ ∧
    DomainService.checkDomainVerification none true 9 1 1 sampleState =
      DomainService.checkDomainVerification (some failedAttrs) true 9 1 1 sampleState ∧
    (DomainService.checkDomainVerification none true 9 1 1 sampleState).1 =
      ⟨true, some false, none⟩ ∧
    ∃ r, DomainService.findDomainById 1
        (DomainService.checkDomainVerification none true 9 1 1 sampleState).2 = some r ∧
      r.verificationStatus = "failed" ∧
      r.verificationAttempts = sampleDomain.verificationAttempts + 1) :=
  ⟨by decide, by decide,
    ses_status_error_yields_failed 9 1 1 sampleState sampleDomain
      (by decide) (by decide)⟩

end Vahan
